import Mathlib

/-!
Verification of the GB-580 serial protocol decoder (gb580.py).

The program represents all wire data as hexadecimal text: every byte of the
serial stream appears as two hexadecimal characters, and all offsets and
lengths in the source are measured in hexadecimal characters.  We model a
hexadecimal string as a list of hexadecimal digit values (each conceptually
in 0..15), written HexStr.  Slicing s[a:b] becomes (s.take b).drop a, which
clamps exactly as Python slicing does.

Python floats produced by the divisions by 10.0, 100.0 and 1000000.0 are
modelled as exact rationals; for every unsigned 32-bit operand the float
computations of the source round to exactly these values.  The datetime
accumulator act_time is modelled as a natural number of milliseconds: the
source adds timedelta(milliseconds = interval * 1000) where interval is the
raw delta divided by 10.0, i.e. 100 * delta milliseconds, and the strftime
rendering with format %Y-%m-%dT%H:%M:%SZ truncates to whole seconds,
modelled as division by 1000.
-/

namespace GB580

/-- A hexadecimal text string, one entry per hexadecimal character. -/
abbrev HexStr := List Nat

/-- Model of Utilities.hex2dec: int(s, 16) parses big-endian hexadecimal
text; the source returns 0 for the empty string, and so does the fold. -/
def hex2dec (s : HexStr) : Nat := s.foldl (fun a d => 16 * a + d) 0

/-- Python slice s[a:b] (with 0 <= a, b measured from the front). -/
def slice (s : List Nat) (a b : Nat) : List Nat := (s.take b).drop a

/-- Model of Utilities.read_int16: hex2dec(hex[2:4] + hex[0:2]), the
byte-swapped (little-endian) 16-bit read. -/
def read_int16 (s : HexStr) : Nat := hex2dec (slice s 2 4 ++ slice s 0 2)

/-- Model of Utilities.read_int32: hex2dec(hex[6:8] + hex[4:6] + hex[2:4] +
hex[0:2]), the byte-swapped (little-endian) 32-bit read. -/
def read_int32 (s : HexStr) : Nat :=
  hex2dec (slice s 6 8 ++ slice s 4 6 ++ slice s 2 4 ++ slice s 0 2)

/-- The fixed daylight-saving hour offset constant (TIME_OFFSET = 2). -/
def TIME_OFFSET : Nat := 2

/-- Section constants of the source, in hexadecimal characters:
TRACK_HEADER_LEN = 48 characters = 24 bytes. -/
def TRACK_HEADER_LEN : Nat := 48

/-- TRACK_POINT_LEN = 64 characters = 32 bytes. -/
def TRACK_POINT_LEN : Nat := 64

/-- TRACK_LAP_LEN = 80 characters = 40 bytes. -/
def TRACK_LAP_LEN : Nat := 80

/-- TRACKPTS_PER_SECTION = 63. -/
def TRACKPTS_PER_SECTION : Nat := 63

/-- SECTION_LEN = 4080 hexadecimal characters = 2040 bytes =
TRACK_HEADER_LEN + TRACKPTS_PER_SECTION * TRACK_POINT_LEN. -/
def SECTION_LEN : Nat := 4080

/-- Structural helper for toHexDigits: the first argument is fuel, the
recursion divides the value by 16 each step, and a fuel of n is always
enough for the value n (the fuel-zero case is reached only for n = 0,
where the answer [0] is the correct single digit). -/
def toHexDigitsGo : Nat → Nat → List Nat
  | 0, n => [n]
  | fuel + 1, n =>
    if n < 16 then [n] else toHexDigitsGo fuel (n / 16) ++ [n % 16]

/-- Model of the format "%X" used by Utilities.dec2hex: the big-endian
hexadecimal digits of n, a single digit 0 for n = 0, no leading zeros. -/
def toHexDigits (n : Nat) : List Nat := toHexDigitsGo n n

/-- Model of Utilities.dec2hex with a pad width: hex.rjust(pad, 0)[:pad]. -/
def dec2hexPad (n pad : Nat) : HexStr :=
  (List.replicate (pad - (toHexDigits n).length) 0 ++ toHexDigits n).take pad

/-- Model of Utilities.dec2hex without a pad width. -/
def dec2hexRaw (n : Nat) : HexStr := toHexDigits n

/-- Model of Utilities.hex2chr seen at the byte level: the hexadecimal text
is consumed two characters at a time (a trailing lone character parses as a
single digit, exactly as int of one character does). -/
def hex2bytes : HexStr → List Nat
  | [] => []
  | [a] => [a]
  | a :: b :: t => (16 * a + b) :: hex2bytes t

/-- Accumulator form of Utilities.checkersum: checksum starts at 0 and each
two-character group is folded in with XOR, in text order. -/
def checkersumAux : HexStr → Nat → Nat
  | [], acc => acc
  | [a], acc => Nat.xor acc a
  | a :: b :: t, acc => checkersumAux t (Nat.xor acc (16 * a + b))

/-- The numeric value computed by Utilities.checkersum. -/
def checkersumVal (s : HexStr) : Nat := checkersumAux s 0

/-- Model of Utilities.checkersum: the XOR fold rendered back to
hexadecimal text with dec2hex (no padding). -/
def checkersum (s : HexStr) : HexStr := dec2hexRaw (checkersumVal s)

/-- Model of Utilities.chop: [s[i*chunk : (i+1)*chunk] for i in
range((len(s) + chunk - 1) / chunk)]. -/
def chop (s : List Nat) (chunk : Nat) : List (List Nat) :=
  (List.range ((s.length + chunk - 1) / chunk)).map
    (fun i => slice s (i * chunk) ((i + 1) * chunk))

/-! Fixed command templates of GB580.COMMANDS, as hexadecimal digit
sequences (only the parameter-free entries; the parametrized getTracks
template is modelled by the frame builder below). -/

def getTracklist_hex : HexStr := [0, 2, 0, 0, 0, 1, 7, 8, 7, 9]

def requestNextTrackSegment_hex : HexStr := [0, 2, 0, 0, 0, 1, 8, 1, 8, 0]

def requestErrornousTrackSegment_hex : HexStr := [0, 2, 0, 0, 0, 1, 8, 2, 8, 3]

def formatTracks_hex : HexStr := [0, 2, 0, 0, 0, 3, 7, 9, 0, 0, 6, 4, 1, 14]

def getWaypoints_hex : HexStr := [0, 2, 0, 0, 0, 1, 7, 7, 7, 6]

def formatWaypoints_hex : HexStr := [0, 2, 0, 0, 0, 3, 7, 5, 0, 0, 6, 4, 1, 2]

def unitInformation_hex : HexStr := [0, 2, 0, 0, 0, 1, 8, 5, 8, 4]

def whoAmI_hex : HexStr := [0, 2, 0, 0, 0, 1, 11, 15, 11, 14]

def unknown_hex : HexStr := [0, 2, 0, 0, 0, 1, 8, 3, 8, 2]

/-- All parameter-free frames of the command table. -/
def fixedCommandFrames : List HexStr :=
  [getTracklist_hex, requestNextTrackSegment_hex,
   requestErrornousTrackSegment_hex, formatTracks_hex, getWaypoints_hex,
   formatWaypoints_hex, unitInformation_hex, whoAmI_hex, unknown_hex]

/-- Model of the frame built by GB580.read_track for a single track id:
the getTracks template 0200 + payload + numberOfTracks + trackIds +
checksum, where payload = dec2hex(1 * 512 + 896, 4), numberOfTracks =
dec2hex(1, 4), trackIds = dec2hex(id, 4) and the checksum is
checkersum(payload + numberOfTracks + trackIds). -/
def read_track_frame_hex (id : Nat) : HexStr :=
  [0, 2, 0, 0] ++ dec2hexPad (1 * 512 + 896) 4 ++ dec2hexPad 1 4
    ++ dec2hexPad id 4
    ++ checkersum (dec2hexPad (1 * 512 + 896) 4 ++ dec2hexPad 1 4
        ++ dec2hexPad id 4)

/-- Model of Utilities.read_datetime: six unswapped bytes are year offset
from 2000, month, day, hour, minute, second; the hour is lowered by the
fixed TIME_OFFSET constant before the instant is built.  The tzinfo
argument of the source carries no numeric content and is omitted. -/
structure DateTimeRec where
  year : Nat
  month : Nat
  day : Nat
  hour : Nat
  minute : Nat
  second : Nat

def read_datetime (s : HexStr) : DateTimeRec :=
  { year := 2000 + hex2dec (slice s 0 2)
    month := hex2dec (slice s 2 4)
    day := hex2dec (slice s 4 6)
    hour := hex2dec (slice s 6 8) - TIME_OFFSET
    minute := hex2dec (slice s 8 10)
    second := hex2dec (slice s 10 12) }

/-- One decoded trackpoint (class TrackPoint).  The timestamp field models
the strftime("%Y-%m-%dT%H:%M:%SZ") rendering of the running datetime as
the whole number of seconds of that instant; the source float divisions by
1000000.0, 100.0 and 10.0 are exact rationals here. -/
structure TrackPointRec where
  latitude : Rat
  longitude : Rat
  altitude : Nat
  speed : Rat
  hr : Nat
  interval_time : Rat
  cadence : Nat
  power_cad : Nat
  power : Nat
  timestamp : Nat

/-- The raw 0.1-second interval delta of a point record:
read_int32(data[40:]). -/
def intervalRaw (data : HexStr) : Nat := read_int32 (data.drop 40)

/-- Model of TrackPoint.process_trackpoint.  The running time act_time is
a natural number of milliseconds; the source advances it by
timedelta(milliseconds = (delta / 10.0) * 1000) = 100 * delta
milliseconds and returns the new value, storing its whole-second
truncation in the timestamp field. -/
def process_trackpoint (data : HexStr) (act_time : Nat) :
    TrackPointRec × Nat :=
  let new_time := act_time + 100 * intervalRaw data
  ({ latitude := (read_int32 data : Rat) / 1000000
     longitude := (read_int32 (data.drop 8) : Rat) / 1000000
     altitude := read_int16 (data.drop 16)
     speed := (read_int32 (data.drop 24) : Rat) / 100
     hr := hex2dec (slice data 32 34)
     interval_time := (intervalRaw data : Rat) / 10
     cadence := read_int16 (data.drop 48)
     power_cad := read_int16 (data.drop 52)
     power := read_int16 (data.drop 56)
     timestamp := new_time / 1000 }, new_time)

/-- Sequential decoding of a list of point records, threading the running
time exactly as the point-reading loop of the source does. -/
def processPoints : List HexStr → Nat → List TrackPointRec × Nat
  | [], t => ([], t)
  | r :: rest, t =>
    let pr := process_trackpoint r t
    let res := processPoints rest pr.2
    (pr.1 :: res.1, res.2)

/-- One decoded lap (class TrackLap), fields in source order. -/
structure TrackLapRec where
  end_time : Rat
  lap_time : Rat
  distance : Nat
  calories : Nat
  max_speed : Rat
  max_hr : Nat
  avg_hr : Nat
  min_altitude : Nat
  max_altitude : Nat
  avg_cadence : Nat
  max_cadence : Nat
  avg_power : Nat
  max_power : Nat
  start_pt_index : Nat
  end_pt_index : Nat

/-- Model of TrackLap.process_lap (the source also returns the constant
offset increment TRACK_LAP_LEN, modelled in the decoding loop). -/
def process_lap (data : HexStr) : TrackLapRec :=
  { end_time := (read_int32 data : Rat) / 10
    lap_time := (read_int32 (data.drop 8) : Rat) / 10
    distance := read_int32 (data.drop 16)
    calories := read_int16 (data.drop 24)
    max_speed := (read_int32 (data.drop 32) : Rat) / 100
    max_hr := hex2dec (slice data 40 42)
    avg_hr := hex2dec (slice data 42 44)
    min_altitude := read_int16 (data.drop 44)
    max_altitude := read_int16 (data.drop 48)
    avg_cadence := read_int16 (data.drop 52)
    max_cadence := read_int16 (data.drop 56)
    avg_power := read_int16 (data.drop 60)
    max_power := read_int16 (data.drop 64)
    start_pt_index := read_int16 (data.drop 72)
    end_pt_index := read_int16 (data.drop 76) }

/-- Decoded track header (GB580.process_track_header field assignments). -/
structure TrackHeaderRec where
  start_time : DateTimeRec
  track_pt_count : Nat
  total_time : Rat
  total_distance : Nat
  num_of_laps : Nat
  total_calories : Nat
  max_speed : Rat
  max_hr : Nat
  avg_hr : Nat
  total_ascend : Nat
  total_descend : Nat
  min_altitude : Nat
  max_altitude : Nat
  avg_cadence : Nat
  max_cadence : Nat
  avg_power : Nat
  max_power : Nat

/-- Model of GB580.process_track_header: the raw response loses its
six-character (3-byte) prefix, then the fields are decoded at the fixed
offsets of the source. -/
def process_track_header (raw : HexStr) : TrackHeaderRec :=
  let data := raw.drop 6
  { start_time := read_datetime data
    track_pt_count := read_int16 (data.drop 12)
    total_time := (read_int32 (data.drop 16) : Rat) / 10
    total_distance := read_int32 (data.drop 24)
    num_of_laps := read_int16 (data.drop 32)
    total_calories := read_int16 (data.drop 48)
    max_speed := (read_int32 (data.drop 56) : Rat) / 100
    max_hr := hex2dec (slice data 64 66)
    avg_hr := hex2dec (slice data 66 68)
    total_ascend := read_int16 (data.drop 68)
    total_descend := read_int16 (data.drop 72)
    min_altitude := read_int16 (data.drop 76)
    max_altitude := read_int16 (data.drop 80)
    avg_cadence := read_int16 (data.drop 84)
    max_cadence := read_int16 (data.drop 88)
    avg_power := read_int16 (data.drop 92)
    max_power := read_int16 (data.drop 96) }

/-- Trimming step of GB580.process_tracklist: tracklist[6 : -2], the
six-character (3-byte) header and two-character (1-byte) footer removed. -/
def trimTracklist (s : HexStr) : HexStr := (s.take (s.length - 2)).drop 6

/-- Catalog entries of GB580.process_tracklist:
chop(tracklist[6 : -2], 48). -/
def tracklist_entries (tracklist : HexStr) : List HexStr :=
  chop (trimTracklist tracklist) 48

/-- Lap decoding loop of GB580.read_laps: while
offset <= len(data) - TRACK_LAP_LEN, decode one lap at the offset and
advance by TRACK_LAP_LEN (the value returned by process_lap). -/
def decodeLapsFrom (data : HexStr) (offset : Nat) : List TrackLapRec :=
  if _h : offset + TRACK_LAP_LEN ≤ data.length then
    process_lap (data.drop offset) :: decodeLapsFrom data (offset + TRACK_LAP_LEN)
  else []
  termination_by data.length - offset
  decreasing_by simp only [TRACK_LAP_LEN] at *; omega

/-- Model of GB580.read_laps over a stream of responses (the list of
successive read_serial results).  The source issues exactly one
requestNextTrackSegment, performs exactly one read, drops the
six-character prefix and decodes laps starting at offset
TRACK_HEADER_LEN; there is no continuation loop.  The second component is
the number of requestNextTrackSegment frames written. -/
def read_laps (responses : List HexStr) : List TrackLapRec × Nat :=
  let data := (responses.headD []).drop 6
  (decodeLapsFrom data TRACK_HEADER_LEN, 1)

/-- Point decoding loop of GB580.read_trackpoints over one segment: while
offset <= len(data) - TRACK_POINT_LEN, decode one point, thread the
running time, advance by TRACK_POINT_LEN. -/
def decodePointsFrom (data : HexStr) (offset : Nat) (t : Nat) :
    List TrackPointRec × Nat :=
  if _h : offset + TRACK_POINT_LEN ≤ data.length then
    let pr := process_trackpoint (data.drop offset) t
    let res := decodePointsFrom data (offset + TRACK_POINT_LEN) pr.2
    (pr.1 :: res.1, res.2)
  else ([], t)
  termination_by data.length - offset
  decreasing_by simp only [TRACK_POINT_LEN] at *; omega

/-- The while-True loop of GB580.read_trackpoints over a stream of
responses.  Each iteration reads one response (an exhausted stream models
read_serial returning the empty buffer), drops the six-character prefix,
decodes the points after the TRACK_HEADER_LEN header slot, and re-issues
requestNextTrackSegment exactly when len(data) - 2 == SECTION_LEN, all
lengths in hexadecimal characters.  Result: decoded points, final running
time, and the number of continuation requests written inside the loop. -/
def read_trackpoints_loop : List HexStr → Nat → List TrackPointRec × Nat × Nat
  | [], t => ([], t, 0)
  | r :: rest, t =>
    let data := r.drop 6
    let dec := decodePointsFrom data TRACK_HEADER_LEN t
    if data.length - 2 = SECTION_LEN then
      let next := read_trackpoints_loop rest dec.2
      (dec.1 ++ next.1, next.2.1, next.2.2 + 1)
    else (dec.1, dec.2, 0)

/-- Model of GB580.read_trackpoints: one initial requestNextTrackSegment,
then the loop; the third component counts every requestNextTrackSegment
frame written. -/
def read_trackpoints (responses : List HexStr) (t0 : Nat) :
    List TrackPointRec × Nat × Nat :=
  let l := read_trackpoints_loop responses t0
  (l.1, l.2.1, l.2.2 + 1)

/-- Continuation-request count of the read_trackpoints loop, by itself:
the transition test of the source depends only on the segment length. -/
def segment_requests : List HexStr → Nat
  | [] => 0
  | r :: rest =>
    if (r.drop 6).length - 2 = SECTION_LEN then segment_requests rest + 1
    else 0

/-- Model of Serial.read_serial seen from the bytes actually delivered by
the port within the timeout window: the buffer is rendered to hexadecimal
text by chr2hex (format %02X per byte) and returned unchanged; the source
has no error path, so the codomain is plain hexadecimal text. -/
def chr2hexByte (b : Nat) : HexStr :=
  List.replicate (2 - (toHexDigits b).length) 0 ++ toHexDigits b

def chr2hex (bs : List Nat) : HexStr := (bs.map chr2hexByte).flatten

def read_serial (raw : List Nat) : HexStr := chr2hex raw

/-- Outcome type used to state the specification sentence about
read_serial (a Timeout signal on a zero-byte read). -/
inductive SerialOutcome where
  | timeout : SerialOutcome
  | data : HexStr → SerialOutcome
deriving DecidableEq

/-- Follows the words of the specification, for comparison with the
implementation: signal Timeout when zero bytes were read, otherwise
return the (possibly short) buffer. -/
def read_serial_spec (raw : List Nat) : SerialOutcome :=
  if raw.length = 0 then SerialOutcome.timeout
  else SerialOutcome.data (chr2hex raw)

/-- XOR fold of a byte sequence, starting from 0. -/
def xorFold (l : List Nat) : Nat := l.foldl Nat.xor 0

/-- The DOCUMENTED track-header sample of the source comments (payload
0E0A1D122A2C 3607 6498 0000 1E76 0000 0800 0000 0700 AA00), preceded by a
six-character status/length prefix as in a raw response. -/
def trackHeaderSample : HexStr :=
  [0, 0, 0, 0, 0, 0,
   0, 14, 0, 10, 1, 13, 1, 2, 2, 10, 2, 12,
   3, 6, 0, 7,
   6, 4, 9, 8,
   0, 0, 0, 0,
   1, 14, 7, 6,
   0, 0, 0, 0,
   0, 8, 0, 0,
   0, 0, 0, 0,
   0, 7, 0, 0,
   10, 10, 0, 0]

/-! ## Helper lemmas -/

lemma toHexDigits_small (n : Nat) (h : n < 16) : toHexDigits n = [n] := by
  cases n with
  | zero => rfl
  | succ m =>
    show toHexDigitsGo (m + 1) (m + 1) = [m + 1]
    simp only [toHexDigitsGo]
    rw [if_pos h]

lemma toHexDigitsGo_irrel :
    ∀ (f n : Nat), n ≤ f → toHexDigitsGo f n = toHexDigits n := by
  intro f
  induction f using Nat.strong_induction_on with
  | _ f ih =>
    intro n hn
    cases f with
    | zero =>
      have : n = 0 := by omega
      subst this
      rfl
    | succ f2 =>
      rcases Nat.lt_or_ge n 16 with h16 | h16
      · rw [toHexDigits_small n h16]
        simp only [toHexDigitsGo]
        rw [if_pos h16]
      · obtain ⟨m, rfl⟩ : ∃ m, n = m + 1 := ⟨n - 1, by omega⟩
        have hdiv : (m + 1) / 16 ≤ f2 := by omega
        have hdiv2 : (m + 1) / 16 ≤ m := by omega
        show toHexDigitsGo (f2 + 1) (m + 1) = toHexDigitsGo (m + 1) (m + 1)
        simp only [toHexDigitsGo]
        rw [if_neg (by omega), if_neg (by omega)]
        rw [ih f2 (by omega) ((m + 1) / 16) hdiv,
          ih m (by omega) ((m + 1) / 16) hdiv2]

lemma toHexDigits_step (n : Nat) (h : 16 ≤ n) :
    toHexDigits n = toHexDigits (n / 16) ++ [n % 16] := by
  obtain ⟨m, rfl⟩ : ∃ m, n = m + 1 := ⟨n - 1, by omega⟩
  show toHexDigitsGo (m + 1) (m + 1) = _
  simp only [toHexDigitsGo]
  rw [if_neg (by omega)]
  rw [toHexDigitsGo_irrel m ((m + 1) / 16) (by omega)]

lemma toHexDigits_mem_lt (n : Nat) : ∀ d ∈ toHexDigits n, d < 16 := by
  induction n using Nat.strong_induction_on with
  | _ n ih =>
    intro d hd
    rcases Nat.lt_or_ge n 16 with h16 | h16
    · rw [toHexDigits_small n h16] at hd
      simp at hd; omega
    · rw [toHexDigits_step n h16] at hd
      rcases List.mem_append.1 hd with h | h
      · exact ih (n / 16) (Nat.div_lt_self (by omega) (by omega)) d h
      · simp at h; omega

lemma toHexDigits_ne_nil (n : Nat) : toHexDigits n ≠ [] := by
  rcases Nat.lt_or_ge n 16 with h16 | h16
  · rw [toHexDigits_small n h16]; simp
  · rw [toHexDigits_step n h16]; simp

lemma toHexDigits_two (n : Nat) (h1 : 16 ≤ n) (h2 : n < 256) :
    toHexDigits n = [n / 16, n % 16] := by
  rw [toHexDigits_step n h1]
  rw [toHexDigits_small (n / 16) (by omega)]
  rfl

lemma toHexDigits_three (n : Nat) (h1 : 256 ≤ n) (h2 : n < 4096) :
    toHexDigits n = [n / 256, n / 16 % 16, n % 16] := by
  rw [toHexDigits_step n (by omega)]
  rw [toHexDigits_two (n / 16) (by omega) (by omega)]
  have e1 : n / 16 / 16 = n / 256 := by omega
  rw [e1]
  rfl

lemma toHexDigits_four (n : Nat) (h1 : 4096 ≤ n) (h2 : n < 65536) :
    toHexDigits n = [n / 4096, n / 256 % 16, n / 16 % 16, n % 16] := by
  rw [toHexDigits_step n (by omega)]
  rw [toHexDigits_three (n / 16) (by omega) (by omega)]
  have e1 : n / 16 / 256 = n / 4096 := by omega
  have e2 : n / 16 / 16 % 16 = n / 256 % 16 := by omega
  rw [e1, e2]
  rfl

lemma dec2hexPad_length (n p : Nat) : (dec2hexPad n p).length = p := by
  have h := toHexDigits_ne_nil n
  have : 1 ≤ (toHexDigits n).length := List.length_pos.2 h
  simp [dec2hexPad]
  omega

lemma dec2hexPad_mem_lt (n p : Nat) : ∀ d ∈ dec2hexPad n p, d < 16 := by
  intro d hd
  have hd2 := List.mem_of_mem_take hd
  rcases List.mem_append.1 hd2 with h | h
  · have := List.eq_of_mem_replicate h
    omega
  · exact toHexDigits_mem_lt n d h

lemma hex2bytes_append_even :
    ∀ (s t : HexStr), s.length % 2 = 0 →
      hex2bytes (s ++ t) = hex2bytes s ++ hex2bytes t
  | [], t, _ => rfl
  | [a], t, h => by simp at h
  | a :: b :: rest, t, h => by
    simp only [List.cons_append, hex2bytes]
    exact congrArg (fun l => (16 * a + b) :: l)
      (hex2bytes_append_even rest t (by simp at h; omega))

lemma hex2bytes_mem_lt :
    ∀ (s : HexStr), (∀ d ∈ s, d < 16) → ∀ b ∈ hex2bytes s, b < 256
  | [], _, b, hb => by simp [hex2bytes] at hb
  | [a], h, b, hb => by
    simp [hex2bytes] at hb
    have := h a (by simp)
    omega
  | a :: c :: rest, h, b, hb => by
    simp only [hex2bytes, List.mem_cons] at hb
    rcases hb with hb | hb
    · have h1 := h a (by simp)
      have h2 := h c (by simp)
      omega
    · exact hex2bytes_mem_lt rest (fun d hd => h d (by simp [hd])) b hb

lemma checkersumAux_eq :
    ∀ (s : HexStr) (acc : Nat),
      checkersumAux s acc = (hex2bytes s).foldl Nat.xor acc
  | [], acc => rfl
  | [a], acc => rfl
  | a :: b :: rest, acc => by
    simp only [checkersumAux, hex2bytes, List.foldl_cons]
    exact checkersumAux_eq rest _

lemma xorFold_acc_lt :
    ∀ (l : List Nat) (acc : Nat), (∀ b ∈ l, b < 256) → acc < 256 →
      l.foldl Nat.xor acc < 256
  | [], acc, _, hacc => hacc
  | b :: rest, acc, hl, hacc => by
    simp only [List.foldl_cons]
    refine xorFold_acc_lt rest _ (fun x hx => hl x (by simp [hx])) ?_
    have hb : b < 256 := hl b (by simp)
    have h256 : (256 : Nat) = 2 ^ 8 := by norm_num
    rw [h256] at hacc hb ⊢
    exact Nat.xor_lt_two_pow hacc hb

lemma checkersumVal_lt (s : HexStr) (h : ∀ d ∈ s, d < 16) :
    checkersumVal s < 256 := by
  rw [checkersumVal, checkersumAux_eq]
  exact xorFold_acc_lt _ 0 (hex2bytes_mem_lt s h) (by omega)

lemma hex2bytes_toHexDigits (n : Nat) (h : n < 256) :
    hex2bytes (toHexDigits n) = [n] := by
  rcases Nat.lt_or_ge n 16 with h16 | h16
  · rw [toHexDigits_small n h16]; rfl
  · rw [toHexDigits_two n h16 h]
    simp [hex2bytes]
    omega

lemma lastD_concat (l : List Nat) (a : Nat) :
    ∀ d, (l ++ [a]).getLastD d = a := by
  induction l with
  | nil => intro d; rfl
  | cons x xs ih =>
    intro d
    rw [List.cons_append, List.getLastD_cons]
    exact ih x

lemma slice_shift (s : List Nat) (a b k : Nat) :
    slice s (a + k) (b + k) = slice (s.drop k) a b := by
  simp only [slice]
  rw [Nat.add_comm a k, ← List.drop_drop, List.drop_take]
  have e : b + k - k = b := by omega
  rw [e]

lemma slice_congr (s : List Nat) {a b a2 b2 : Nat} (ha : a = a2)
    (hb : b = b2) : slice s a b = slice s a2 b2 := by
  rw [ha, hb]

lemma slice_shift48 (s : List Nat) (i : Nat) :
    slice s ((i + 1) * 48) ((i + 1 + 1) * 48)
      = slice (s.drop 48) (i * 48) ((i + 1) * 48) := by
  have h1 : slice s ((i + 1) * 48) ((i + 1 + 1) * 48)
      = slice s (i * 48 + 48) ((i + 1) * 48 + 48) :=
    slice_congr s (by ring) (by ring)
  rw [h1, slice_shift]

lemma chop48_cons (s : List Nat) (h : s ≠ []) :
    chop s 48 = s.take 48 :: chop (s.drop 48) 48 := by
  have hlen : 1 ≤ s.length := List.length_pos.2 h
  have hcount : (s.length + 48 - 1) / 48 = (s.length - 1) / 48 + 1 := by omega
  have hcount2 : ((s.drop 48).length + 48 - 1) / 48 = (s.length - 1) / 48 := by
    simp only [List.length_drop]
    omega
  simp only [chop]
  rw [hcount, hcount2, List.range_succ_eq_map]
  simp only [List.map_cons, List.map_map]
  rw [List.cons_eq_cons]
  constructor
  · simp [slice]
  · apply List.map_congr_left
    intro i _
    exact slice_shift48 s i

lemma chop48_flatten (s : List Nat) : (chop s 48).flatten = s := by
  rcases eq_or_ne s [] with h | h
  · subst h; rfl
  · rw [chop48_cons s h, List.flatten_cons, chop48_flatten (s.drop 48),
      List.take_append_drop]
termination_by s.length
decreasing_by
  have : 1 ≤ s.length := List.length_pos.2 h
  simp only [List.length_drop]
  omega

lemma chop48_getD (s : List Nat) (i : Nat)
    (h : i < (s.length + 48 - 1) / 48) :
    (chop s 48).getD i [] = slice s (i * 48) ((i + 1) * 48) := by
  simp only [chop, List.getD_eq_getElem?_getD, List.getElem?_map,
    List.getElem?_range h, Option.map_some', Option.getD_some]

lemma chop48_size (s : List Nat) (i : Nat)
    (h : i + 1 < (chop s 48).length) :
    ((chop s 48).getD i []).length = 48 := by
  have hlen : (chop s 48).length = (s.length + 48 - 1) / 48 := by
    simp [chop]
  rw [hlen] at h
  rw [chop48_getD s i (by omega)]
  simp only [slice, List.length_drop, List.length_take]
  omega

lemma processPoints_time (recs : List HexStr) :
    ∀ t0, (processPoints recs t0).2
      = t0 + 100 * (recs.map intervalRaw).sum := by
  induction recs with
  | nil => intro t0; simp [processPoints]
  | cons r rest ih =>
    intro t0
    simp only [processPoints, List.map_cons, List.sum_cons]
    rw [ih]
    simp only [process_trackpoint]
    ring

lemma loop_requests (responses : List HexStr) :
    ∀ t, (read_trackpoints_loop responses t).2.2
      = segment_requests responses := by
  induction responses with
  | nil => intro t; rfl
  | cons r rest ih =>
    intro t
    simp only [read_trackpoints_loop, segment_requests]
    split
    · simp [ih]
    · rfl

lemma chr2hexByte_eq (b : Nat) (hb : b < 256) :
    chr2hexByte b = [b / 16, b % 16] := by
  rcases Nat.lt_or_ge b 16 with h1 | h1
  · rw [chr2hexByte, toHexDigits_small b h1]
    have e1 : b / 16 = 0 := by omega
    have e2 : b % 16 = b := by omega
    rw [e1, e2]
    rfl
  · rw [chr2hexByte, toHexDigits_two b h1 hb]
    rfl

lemma read_track_frame_checksum (id : Nat) :
    xorFold ((hex2bytes (read_track_frame_hex id)).dropLast.drop 1)
      = (hex2bytes (read_track_frame_hex id)).getLastD 0 := by
  set P := dec2hexPad (1 * 512 + 896) 4 with hP
  set N := dec2hexPad 1 4 with hN
  set I := dec2hexPad id 4 with hI
  have hPl : P.length = 4 := dec2hexPad_length _ _
  have hNl : N.length = 4 := dec2hexPad_length _ _
  have hIl : I.length = 4 := dec2hexPad_length _ _
  have hmd : ∀ d ∈ P ++ N ++ I, d < 16 := by
    intro d hd
    rcases List.mem_append.1 hd with h1 | h1
    · rcases List.mem_append.1 h1 with h2 | h2
      · exact dec2hexPad_mem_lt _ _ d h2
      · exact dec2hexPad_mem_lt _ _ d h2
    · exact dec2hexPad_mem_lt _ _ d h1
  have hck : checkersumVal (P ++ N ++ I) < 256 := checkersumVal_lt _ hmd
  have hframe : read_track_frame_hex id
      = ([0, 2, 0, 0] ++ P ++ N ++ I) ++ checkersum (P ++ N ++ I) := by
    simp [read_track_frame_hex, List.append_assoc]
  have hsplit : hex2bytes (read_track_frame_hex id)
      = hex2bytes ([0, 2, 0, 0] ++ P ++ N ++ I)
          ++ [checkersumVal (P ++ N ++ I)] := by
    rw [hframe]
    rw [hex2bytes_append_even _ _ (by simp [hPl, hNl, hIl])]
    rw [show checkersum (P ++ N ++ I)
        = toHexDigits (checkersumVal (P ++ N ++ I)) from rfl]
    rw [hex2bytes_toHexDigits _ hck]
  have hpre : hex2bytes ([0, 2, 0, 0] ++ P ++ N ++ I)
      = 2 :: 0 :: (hex2bytes P ++ hex2bytes N ++ hex2bytes I) := by
    rw [hex2bytes_append_even _ I (by simp [hPl, hNl])]
    rw [hex2bytes_append_even _ N (by simp [hPl])]
    rw [hex2bytes_append_even [0, 2, 0, 0] P (by simp)]
    simp [hex2bytes, List.append_assoc]
  rw [hsplit, hpre]
  rw [List.dropLast_concat, lastD_concat]
  simp only [List.drop_succ_cons, List.drop_zero]
  rw [checkersumVal, checkersumAux_eq]
  rw [hex2bytes_append_even _ I (by simp [hPl, hNl]),
    hex2bytes_append_even P N (by simp [hPl])]
  simp only [xorFold, List.foldl_cons]
  have hz : Nat.xor 0 0 = 0 := rfl
  rw [hz]

/-- C1: the specification claims that for every built frame the final byte
equals the XOR fold of ALL preceding bytes.  Counterexample: for the
getTracklist frame 02 00 01 78 79, the XOR fold of 02, 00, 01, 78 is 7B,
not the final byte 79: the leading 02 byte is not covered by the
checksum. -/
theorem claim_C1_counterexample :
    ¬ (xorFold ((hex2bytes getTracklist_hex).dropLast)
        = (hex2bytes getTracklist_hex).getLastD 0) := by decide

/-- C1 (amended): for every frame of the command table and every frame
built by read_track, the final byte equals the XOR fold of the preceding
bytes EXCLUDING the leading 02 start byte. -/
theorem claim_C1 :
    (∀ f ∈ fixedCommandFrames,
      xorFold ((hex2bytes f).dropLast.drop 1) = (hex2bytes f).getLastD 0)
    ∧ ∀ id : Nat,
      xorFold ((hex2bytes (read_track_frame_hex id)).dropLast.drop 1)
        = (hex2bytes (read_track_frame_hex id)).getLastD 0 := by
  constructor
  · decide
  · exact read_track_frame_checksum

/-- C1 witness: the amended checksum property evaluated on the concrete
getTracklist frame, discharging the membership hypothesis. -/
theorem claim_C1_witness :
    xorFold ((hex2bytes getTracklist_hex).dropLast.drop 1)
      = (hex2bytes getTracklist_hex).getLastD 0 :=
  claim_C1.1 getTracklist_hex (List.mem_cons_self _ _)

/-- C2: decoding a sequence of point records with the running-time
accumulator is additive: for every start time t0 (milliseconds) and every
prefix of k records, the running time after the k-th decode, which is the
absolute timestamp attached to the k-th point, equals t0 plus the sum of
the first k interval deltas (each delta counted in 0.1 s = 100 ms units);
in particular the running time returned by the last decode is t0 plus the
sum of all deltas. -/
theorem claim_C2 (t0 : Nat) (recs : List HexStr) (k : Nat) :
    (processPoints (recs.take k) t0).2
      = t0 + 100 * ((recs.take k).map intervalRaw).sum
    ∧ (processPoints recs t0).2
      = t0 + 100 * (recs.map intervalRaw).sum :=
  ⟨processPoints_time (recs.take k) t0, processPoints_time recs t0⟩

/-- C10: each decoded point stores its absolute timestamp at whole-second
resolution: the stored timestamp is the running time divided by 1000
(truncating the fractional second), while the running time returned for
the next decode keeps the full 100-millisecond-per-delta-unit precision;
the discarded remainder is exactly the new running time modulo 1000. -/
theorem claim_C10 (data : HexStr) (t : Nat) :
    (process_trackpoint data t).2 = t + 100 * intervalRaw data
    ∧ (process_trackpoint data t).1.timestamp
        = (t + 100 * intervalRaw data) / 1000
    ∧ 1000 * (process_trackpoint data t).1.timestamp
        + (t + 100 * intervalRaw data) % 1000
      = (process_trackpoint data t).2 := by
  refine ⟨rfl, rfl, ?_⟩
  simp only [process_trackpoint]
  omega

/-- C3: the specification claims the controller re-issues
requestNextTrackSegment when the payload length minus a 2-BYTE trailer
equals 2040 bytes.  Counterexample: a response of 2045 bytes (4090
hexadecimal characters) leaves 2042 bytes after the 3-byte prefix, which
is exactly 2040 payload bytes plus a 2-byte trailer, so the claim demands
a continuation request; the source compares len(data) - 2 with
SECTION_LEN in hexadecimal characters, i.e. it subtracts only one byte,
the test 4084 - 2 = 4080 fails, and the transfer stops after the single
initial request. -/
theorem claim_C3_counterexample :
    (read_trackpoints [List.replicate 4090 0] 0).2.2 = 1
    ∧ ((List.replicate (4090 : Nat) (0 : Nat)).drop 6).length = 2 * 2042 := by
  constructor
  · show (read_trackpoints_loop [List.replicate 4090 0] 0).2.2 + 1 = 1
    rw [loop_requests]
    simp only [segment_requests, List.length_drop, List.length_replicate,
      SECTION_LEN]
    norm_num
  · simp only [List.length_drop, List.length_replicate]

/-- C3 (amended): after each response the controller re-issues
requestNextTrackSegment if and only if the length of the data after the
six-character (3-byte) prefix minus TWO HEXADECIMAL CHARACTERS (the
1-byte trailer) equals SECTION_LEN = 4080 hexadecimal characters = 2040
bytes (the 24-byte header slot plus 63 point records of 32 bytes);
otherwise it stops the transfer. -/
theorem claim_C3 (r : HexStr) (rest : List HexStr) (t : Nat) :
    0 < (read_trackpoints_loop (r :: rest) t).2.2
      ↔ (r.drop 6).length - 2 = SECTION_LEN := by
  rw [loop_requests]
  simp only [segment_requests]
  split
  · simp only [Nat.succ_pos, true_iff]
    assumption
  · simp only [Nat.lt_irrefl, false_iff]
    assumption

/-- C4: the specification claims read_u16(encode_u16(x)) = x for the
outgoing parameter encoder of read_track.  Counterexample: read_track
encodes outgoing fields with dec2hex(x, 4), which is plain big-endian
hexadecimal text WITHOUT the byte swap, so decoding it with the
byte-swapped reader read_int16 yields 256 for x = 1, not 1. -/
theorem claim_C4_counterexample : read_int16 (dec2hexPad 1 4) ≠ 1 := by
  have hd : dec2hexPad 1 4 = [0, 0, 0, 1] := by
    simp only [dec2hexPad, toHexDigits_small 1 (by omega)]
    rfl
  rw [hd]
  decide

/-- C4 (amended): the outgoing 16-bit encoder dec2hex(x, 4) used for
payload length, item count and track ids in read_track produces plain
big-endian hexadecimal text, so decoding it with read_int16 returns the
byte-swapped value 256 * (x mod 256) + x div 256 for every representable
x; the source defines no 32-bit outgoing encoder at all. -/
theorem claim_C4 (x : Nat) (hx : x < 65536) :
    read_int16 (dec2hexPad x 4) = 256 * (x % 256) + x / 256 := by
  rcases Nat.lt_or_ge x 16 with h1 | h1
  · have hd : dec2hexPad x 4 = [0, 0, 0, x] := by
      simp only [dec2hexPad, toHexDigits_small x h1]
      rfl
    rw [hd]
    simp [read_int16, slice, hex2dec]
    omega
  · rcases Nat.lt_or_ge x 256 with h2 | h2
    · have hd : dec2hexPad x 4 = [0, 0, x / 16, x % 16] := by
        simp only [dec2hexPad, toHexDigits_two x h1 h2]
        rfl
      rw [hd]
      simp [read_int16, slice, hex2dec]
      omega
    · rcases Nat.lt_or_ge x 4096 with h3 | h3
      · have hd : dec2hexPad x 4 = [0, x / 256, x / 16 % 16, x % 16] := by
          simp only [dec2hexPad, toHexDigits_three x h2 h3]
          rfl
        rw [hd]
        simp [read_int16, slice, hex2dec]
        omega
      · have hd : dec2hexPad x 4
            = [x / 4096, x / 256 % 16, x / 16 % 16, x % 16] := by
          simp only [dec2hexPad, toHexDigits_four x h3 hx]
          rfl
        rw [hd]
        simp [read_int16, slice, hex2dec]
        omega

/-- C4 witness: the amended round-trip statement evaluated at the
concrete representable value 4660 (hexadecimal 1234), whose big-endian
encoding 1234 decodes under the byte swap to 3412 hexadecimal = 13330. -/
theorem claim_C4_witness :
    read_int16 (dec2hexPad 4660 4) = 256 * (4660 % 256) + 4660 / 256 :=
  claim_C4 4660 (by decide)

/-- C5: decoding the documented track-header sample whose payload begins
0E0A1D122A2C yields start date 2014-10-29, hour 18 lowered by the fixed
TIME_OFFSET constant, minute 42, second 44, track point count 1846, total
time 3901.2 seconds and total distance 30238 metres. -/
theorem claim_C5 :
    (process_track_header trackHeaderSample).start_time.year = 2014
    ∧ (process_track_header trackHeaderSample).start_time.month = 10
    ∧ (process_track_header trackHeaderSample).start_time.day = 29
    ∧ (process_track_header trackHeaderSample).start_time.hour
        = 18 - TIME_OFFSET
    ∧ (process_track_header trackHeaderSample).start_time.minute = 42
    ∧ (process_track_header trackHeaderSample).start_time.second = 44
    ∧ (process_track_header trackHeaderSample).track_pt_count = 1846
    ∧ (process_track_header trackHeaderSample).total_time
        = (39012 : Rat) / 10
    ∧ (process_track_header trackHeaderSample).total_distance = 30238 := by
  refine ⟨by decide, by decide, by decide, by decide, by decide, by decide,
    by decide, ?_, by decide⟩
  have hn : read_int32 ((trackHeaderSample.drop 6).drop 16) = 39012 := by
    decide
  show (read_int32 ((trackHeaderSample.drop 6).drop 16) : Rat) / 10
      = (39012 : Rat) / 10
  rw [hn]
  norm_num

/-- C6: the specification claims lap retrieval uses the same repeated
segmented-transfer loop as point retrieval.  Counterexample: on a stream
whose first response is a full-length section (4082 hexadecimal
characters after the prefix, satisfying the continuation test of the
point loop), read_laps still writes exactly one requestNextTrackSegment
and its result ignores every later response, while read_trackpoints on
the very same stream writes two requests. -/
theorem claim_C6_counterexample :
    (read_laps [List.replicate 4088 0, List.replicate 200 0]).2 = 1
    ∧ read_laps [List.replicate 4088 0, List.replicate 200 0]
        = read_laps [List.replicate 4088 0]
    ∧ (read_trackpoints [List.replicate 4088 0, List.replicate 200 0] 0).2.2
        = 2 := by
  refine ⟨rfl, rfl, ?_⟩
  show (read_trackpoints_loop
      [List.replicate 4088 0, List.replicate 200 0] 0).2.2 + 1 = 2
  rw [loop_requests]
  simp only [segment_requests, List.length_drop, List.length_replicate,
    SECTION_LEN]
  norm_num

/-- C6 (amended): lap retrieval does not loop: read_laps issues exactly
one requestNextTrackSegment, decodes every lap record of the single
response it reads, and its result does not depend on any further
response, whatever the length of the first segment; only point retrieval
re-issues the request. -/
theorem claim_C6 (r : HexStr) (rest : List HexStr) :
    read_laps (r :: rest) = read_laps [r]
    ∧ (read_laps (r :: rest)).2 = 1 :=
  ⟨rfl, rfl⟩

/-- C7: the specification claims read_serial signals a Timeout error when
zero bytes were read.  Counterexample: the specification-modelled
behaviour reports a timeout on the empty read, but the implementation has no
error path at all and returns the empty buffer as ordinary data. -/
theorem claim_C7_counterexample :
    read_serial_spec [] = SerialOutcome.timeout
    ∧ SerialOutcome.data (read_serial []) ≠ read_serial_spec [] := by
  decide

/-- C7 (amended): read_serial never signals anything: for every byte
buffer delivered by the port, including the empty one, it returns exactly
the hexadecimal rendering of that buffer, unchanged, unpadded and without
retry: converting the result back to bytes restores the buffer and the
result length is exactly two characters per byte. -/
theorem claim_C7 : ∀ (raw : List Nat), (∀ b ∈ raw, b < 256) →
    hex2bytes (read_serial raw) = raw
    ∧ (read_serial raw).length = 2 * raw.length := by
  intro raw
  induction raw with
  | nil => intro _; exact ⟨rfl, rfl⟩
  | cons b t ih =>
    intro h
    have hb : b < 256 := h b (List.mem_cons_self _ _)
    have ht := ih (fun x hx => h x (List.mem_cons_of_mem _ hx))
    have hsplit : read_serial (b :: t) = chr2hexByte b ++ read_serial t := by
      simp [read_serial, chr2hex]
    rw [hsplit, chr2hexByte_eq b hb]
    constructor
    · show hex2bytes (b / 16 :: b % 16 :: read_serial t) = b :: t
      simp only [hex2bytes]
      rw [ht.1]
      congr 1
      omega
    · simp only [List.length_append, List.length_cons, List.length_nil,
        ht.2]
      omega

/-- C7 witness: the amended statement evaluated on the concrete two-byte
buffer 02 FF, discharging the byte-range hypothesis. -/
theorem claim_C7_witness :
    hex2bytes (read_serial [2, 255]) = [2, 255]
    ∧ (read_serial [2, 255]).length = 2 * [2, 255].length :=
  claim_C7 [2, 255] (by decide)

/-- C8: the specification claims every decoded lap satisfies
start_pt_index <= end_pt_index <= point_count.  Counterexample:
process_lap performs no validation; a 40-byte lap record whose
start-index field holds 1 and whose end-index field holds 0 decodes to
start_pt_index = 1 > 0 = end_pt_index. -/
theorem claim_C8_counterexample :
    ¬ ((process_lap
          (List.replicate 72 0 ++ [0, 1, 0, 0, 0, 0, 0, 0])).start_pt_index
        ≤ (process_lap
          (List.replicate 72 0 ++ [0, 1, 0, 0, 0, 0, 0, 0])).end_pt_index) := by
  decide

/-- C8 (amended): the decoded end_time and lap_time of every lap record
are whole multiples of one tenth of a second (each is a natural number of
tenths divided by 10); the decoder reads the start and end point indices
raw and enforces no relation between them or with the point count. -/
theorem claim_C8 (data : HexStr) :
    ∃ m n : Nat,
      (process_lap data).end_time = (m : Rat) / 10
      ∧ (process_lap data).lap_time = (n : Rat) / 10 :=
  ⟨read_int32 data, read_int32 (data.drop 8), rfl, rfl⟩

/-- C9: chopping the trimmed catalog payload (header and footer removed)
into 48-hexadecimal-character (24-byte) slices is lossless: the
concatenation of all slices reproduces the trimmed payload exactly, and
every slice except possibly the last has exactly 48 characters. -/
theorem claim_C9 (s : HexStr) :
    (tracklist_entries s).flatten = trimTracklist s
    ∧ ∀ i, i + 1 < (tracklist_entries s).length →
        ((tracklist_entries s).getD i []).length = 48 := by
  refine ⟨chop48_flatten _, ?_⟩
  intro i hi
  exact chop48_size _ i hi

/-- C9 witness: the slice-length statement evaluated on a concrete
catalog payload holding two full entries, discharging the index bound at
the first slice. -/
theorem claim_C9_witness :
    ((tracklist_entries (List.replicate 104 0)).getD 0 []).length = 48 :=
  (claim_C9 (List.replicate 104 0)).2 0 (by decide)

end GB580
